/-
A verification development for the Batched Instance Pool of `r3f-tools`
(`src/components/InstanceMeshPool.tsx`).

The pool maps a logical instance index onto a list of fixed-capacity
batches (`THREE.InstancedMesh` objects of capacity `batchSize`), tracks
which batches received writes since the last flush in dirty sets, and on
flush signals a buffer re-upload (and, when interaction or culling is
configured, a bounding-volume recomputation) only for dirty batches.

Modelling notes:
* `THREE.Matrix4` is a 16-element column-major matrix; the pool never
  performs arithmetic on stored matrices (it only stores and retrieves
  them), and every matrix the pool itself constructs (`makeTranslation`
  with integer arguments) has exact integer entries, so entries are
  modelled as `Int`.
* JavaScript array indexing with an out-of-bounds or negative index
  yields `undefined`; the code guards every batch access with
  `if (mesh)`, modelled by an `Option`-returning lookup.
* `Math.floor(index / batchSize)` on a JS number with `batchSize > 0` is
  floor division, modelled by `Int.fdiv`; the JS `%` remainder (sign of
  the dividend) is modelled by `Int.tmod`.
* The JS `Set` of dirty batch indices is modelled as a `Finset Nat`
  (only non-negative group indices are ever inserted, and iteration
  order is irrelevant: each per-batch flush action is an idempotent
  field assignment).
-/
import Mathlib

namespace InstanceMeshPool

/-- `const FarDistance = 10000` — the parking distance for unwritten slots. -/
def FarDistance : Int := 10000

/-- Model of `THREE.Matrix4`: 16 elements in column-major order. -/
structure Matrix4 where
  elements : Fin 16 → Int
deriving DecidableEq

/-- `THREE.Matrix4.prototype.makeTranslation(x, y, z)`: the identity matrix
with the translation components at column-major elements 12, 13, 14. -/
def Matrix4.makeTranslation (x y z : Int) : Matrix4 :=
  ⟨fun i =>
    if i.val = 12 then x
    else if i.val = 13 then y
    else if i.val = 14 then z
    else if i.val = 0 ∨ i.val = 5 ∨ i.val = 10 ∨ i.val = 15 then 1
    else 0⟩

/-- The squared Euclidean norm of a matrix's translation column
(elements 12, 13, 14). -/
def Matrix4.translationNormSq (m : Matrix4) : Int :=
  m.elements 12 ^ 2 + m.elements 13 ^ 2 + m.elements 14 ^ 2

/-- Model of `THREE.Color`: three components. -/
structure Color where
  r : Int
  g : Int
  b : Int
deriving DecidableEq

/-- Model of one `THREE.InstancedMesh` batch as the pool uses it:
`matrices` is the `instanceMatrix` buffer (one slot per instance),
`instanceColor` is the optional color buffer (allocated only when
`enableColors` was set at construction), `count` is the drawn-instance
count, `needsUpdate` / `colorNeedsUpdate` are the buffer re-upload
flags, and `hasBounds` records whether `boundingBox`/`boundingSphere`
are currently computed (`false` models `null`). -/
structure InstancedMesh where
  matrices : List Matrix4
  instanceColor : Option (List Color)
  count : Int
  needsUpdate : Bool
  colorNeedsUpdate : Bool
  hasBounds : Bool
  frustumCulled : Bool
deriving DecidableEq

/-- A freshly constructed batch (the body of the grow loop): capacity
`batchSize` slots, each slot `i` parked at `makeTranslation(0, FarDistance + i, 0)`,
`instanceMatrix.needsUpdate = true`, an all-zero color buffer iff
`enableColors`, `boundingBox`/`boundingSphere` null, and `count = 0`. -/
def newMesh (batchSize : Nat) (enableColors frustumCulled : Bool) : InstancedMesh :=
  { matrices := (List.range batchSize).map fun i : Nat =>
      Matrix4.makeTranslation 0 (FarDistance + (i : Int)) 0
    instanceColor := if enableColors then some (List.replicate batchSize ⟨0, 0, 0⟩) else none
    count := 0
    needsUpdate := true
    colorNeedsUpdate := false
    hasBounds := false
    frustumCulled := frustumCulled }

/-- The pool's retained state: the batch list (`meshGroups`), the two
dirty sets, the cached instance count, and the construction-time
configuration that the operations consult (`batchSize`, `enableColors`,
and the four flags whose disjunction is `shouldComputeBounds`). -/
structure PoolState where
  batchSize : Nat
  meshGroups : List InstancedMesh
  dirtyMatrixBatches : Finset Nat
  dirtyColorBatches : Finset Nat
  currentInstanceCount : Int
  enableColors : Bool
  frustumCulled : Bool
  hasOnClick : Bool
  hasOnPointerOver : Bool
  hasOnPointerOut : Bool
deriving DecidableEq

/-- `meshGroups.current[g]` for a JS (possibly negative) index `g`:
`undefined` (`none`) when `g` is negative or past the end. -/
def meshAt (groups : List InstancedMesh) (g : Int) : Option InstancedMesh :=
  if 0 ≤ g then groups[g.toNat]? else none

/-- `Math.floor(index / batchSizeRef.current)` — the batch (group) index. -/
def groupIndexOf (batchSize : Nat) (index : Int) : Int :=
  Int.fdiv index batchSize

/-- `index % batchSizeRef.current` — the intra-batch slot index
(JS remainder: sign of the dividend). -/
def instanceIndexOf (batchSize : Nat) (index : Int) : Int :=
  Int.tmod index batchSize

/-- `shouldComputeBounds()` = `!!(onClick || onPointerOver || onPointerOut || frustumCulled)`. -/
def shouldComputeBounds (s : PoolState) : Bool :=
  s.hasOnClick || s.hasOnPointerOver || s.hasOnPointerOut || s.frustumCulled

/-- `getMatrixAt(index, matrix)`: route the index, read the slot into
`matrix` if the batch exists, and return `matrix`. -/
def getMatrixAt (s : PoolState) (index : Int) (matrix : Matrix4) : Matrix4 :=
  let g := groupIndexOf s.batchSize index
  let i := instanceIndexOf s.batchSize index
  match meshAt s.meshGroups g with
  | none => matrix
  | some mesh => (mesh.matrices[i.toNat]?).getD matrix

/-- `setMatrixAt(index, matrix)`: route the index; if the batch exists,
write the slot and add the batch index to the matrix dirty set;
otherwise do nothing. -/
def setMatrixAt (s : PoolState) (index : Int) (matrix : Matrix4) : PoolState :=
  let g := groupIndexOf s.batchSize index
  let i := instanceIndexOf s.batchSize index
  match meshAt s.meshGroups g with
  | none => s
  | some mesh =>
      { s with
        meshGroups := s.meshGroups.set g.toNat
          { mesh with matrices := mesh.matrices.set i.toNat matrix }
        dirtyMatrixBatches := insert g.toNat s.dirtyMatrixBatches }

/-- `setColorAt(index, color)`: route the index; if the batch exists and
has a color buffer (`mesh?.instanceColor`), write the slot and add the
batch index to the color dirty set; otherwise do nothing. -/
def setColorAt (s : PoolState) (index : Int) (color : Color) : PoolState :=
  let g := groupIndexOf s.batchSize index
  let i := instanceIndexOf s.batchSize index
  match meshAt s.meshGroups g with
  | none => s
  | some mesh =>
      match mesh.instanceColor with
      | none => s
      | some colors =>
          { s with
            meshGroups := s.meshGroups.set g.toNat
              { mesh with instanceColor := some (colors.set i.toNat color) }
            dirtyColorBatches := insert g.toNat s.dirtyColorBatches }

/-- The `matrices.forEach` loop of `setMatrices`: write each matrix at
`startIndex + i` when its batch exists, collecting the set of affected
batch indices. Returns the updated batch list and `affectedBatches`. -/
def writeMatrices (batchSize : Nat) (startIndex : Int) :
    List Matrix4 → List InstancedMesh → List InstancedMesh × Finset Nat
  | [], groups => (groups, ∅)
  | matrix :: rest, groups =>
      let g := groupIndexOf batchSize startIndex
      let i := instanceIndexOf batchSize startIndex
      match meshAt groups g with
      | none => writeMatrices batchSize (startIndex + 1) rest groups
      | some mesh =>
          let groups1 := groups.set g.toNat
            { mesh with matrices := mesh.matrices.set i.toNat matrix }
          let result := writeMatrices batchSize (startIndex + 1) rest groups1
          (result.1, insert g.toNat result.2)

/-- `setMatrices(matrices, startIndex = 0)`: bulk write, then add every
affected batch index to the matrix dirty set. -/
def setMatrices (s : PoolState) (matrices : List Matrix4) (startIndex : Int := 0) : PoolState :=
  let result := writeMatrices s.batchSize startIndex matrices s.meshGroups
  { s with
    meshGroups := result.1
    dirtyMatrixBatches := s.dirtyMatrixBatches ∪ result.2 }

/-- The `for` loop of `setInstanceCount`: for the `g`-th group (running
offset `offset = g * batchSize`), set
`group.count = Math.max(0, Math.min(count - offset, batchSize))`. -/
def setCounts (batchSize : Nat) (count : Int) (offset : Int) :
    List InstancedMesh → List InstancedMesh
  | [] => []
  | mesh :: rest =>
      { mesh with count := max 0 (min (count - offset) batchSize) }
        :: setCounts batchSize count (offset + batchSize) rest

/-- `setInstanceCount(count)`: record the count and update every batch's
drawn-slot count. -/
def setInstanceCount (s : PoolState) (count : Int) : PoolState :=
  { s with
    currentInstanceCount := count
    meshGroups := setCounts s.batchSize count 0 s.meshGroups }

/-- The matrix half of the flush loop: for each group index `g` (the
recursion carries the current position), a batch in the dirty set gets
`instanceMatrix.needsUpdate = true` and, when bounds are needed, its
bounding volumes recomputed (modelled as `hasBounds := true`). -/
def markMatrixFlushed (needsBounds : Bool) (dirty : Finset Nat) (g : Nat) :
    List InstancedMesh → List InstancedMesh
  | [] => []
  | mesh :: rest =>
      (if g ∈ dirty then
        { mesh with
          needsUpdate := true
          hasBounds := needsBounds || mesh.hasBounds }
      else mesh) :: markMatrixFlushed needsBounds dirty (g + 1) rest

/-- The color half of the flush loop: a batch in the color dirty set
whose color buffer exists gets `instanceColor.needsUpdate = true`. -/
def markColorFlushed (dirty : Finset Nat) (g : Nat) :
    List InstancedMesh → List InstancedMesh
  | [] => []
  | mesh :: rest =>
      (if g ∈ dirty ∧ mesh.instanceColor.isSome then
        { mesh with colorNeedsUpdate := true }
      else mesh) :: markColorFlushed dirty (g + 1) rest

/-- Whether `meshGroups[g]` exists and has a color buffer. -/
def meshHasColor (groups : List InstancedMesh) (g : Nat) : Bool :=
  match groups[g]? with
  | some mesh => mesh.instanceColor.isSome
  | none => false

/-- `processUpdatesAndClearDirtyBatches()` (the body of `updateMatrices`,
`updateColors` and the per-frame callback): process both dirty sets and
clear them. Besides the successor state, the model returns how many
buffer-upload signals (`needsUpdate = true` assignments on existing
meshes, matrix and color together) and how many bounding-volume
recomputations the call performs, so that the minimal-work properties
can be stated. -/
def processUpdates (s : PoolState) : PoolState × Nat × Nat :=
  let needsBounds := shouldComputeBounds s
  let matrixSignals :=
    (s.dirtyMatrixBatches.filter fun g => g < s.meshGroups.length).card
  let colorSignals :=
    (s.dirtyColorBatches.filter fun g => meshHasColor s.meshGroups g = true).card
  let groups1 := markMatrixFlushed needsBounds s.dirtyMatrixBatches 0 s.meshGroups
  let groups2 := markColorFlushed s.dirtyColorBatches 0 groups1
  ({ s with
      meshGroups := groups2
      dirtyMatrixBatches := ∅
      dirtyColorBatches := ∅ },
   matrixSignals + colorSignals,
   if needsBounds then matrixSignals else 0)

/-- `updateMatrices()` delegates to `processUpdatesAndClearDirtyBatches`;
this is the state part of a flush. -/
def updateMatrices (s : PoolState) : PoolState :=
  (processUpdates s).1

/-- `Math.ceil(maxInstances / batchSize)` for `batchSize > 0`. -/
def neededGroupsFor (maxInstances batchSize : Nat) : Nat :=
  (maxInstances + batchSize - 1) / batchSize

/-- The render-body reallocation: grow `meshGroups` by appending fresh
batches while it is shorter than `neededGroups`, then pop trailing
batches while it is longer. -/
def ensureGroups (batchSize maxInstances : Nat) (enableColors frustumCulled : Bool)
    (groups : List InstancedMesh) : List InstancedMesh :=
  let needed := neededGroupsFor maxInstances batchSize
  if groups.length < needed then
    groups ++ List.replicate (needed - groups.length) (newMesh batchSize enableColors frustumCulled)
  else
    groups.take needed

/-- The pool as first constructed from its props: an empty `meshGroups`
ref grown to the needed group count, both dirty sets empty, and
`currentInstanceCount = 0`. -/
def initialPool (batchSize maxInstances : Nat)
    (enableColors frustumCulled hasOnClick hasOnPointerOver hasOnPointerOut : Bool) :
    PoolState :=
  { batchSize := batchSize
    meshGroups := ensureGroups batchSize maxInstances enableColors frustumCulled []
    dirtyMatrixBatches := ∅
    dirtyColorBatches := ∅
    currentInstanceCount := 0
    enableColors := enableColors
    frustumCulled := frustumCulled
    hasOnClick := hasOnClick
    hasOnPointerOver := hasOnPointerOver
    hasOnPointerOut := hasOnPointerOut }

/-- A re-render of the pool with a new `maxInstances` (same `batchSize`
and flags): only the reallocation loops touch `meshGroups`. -/
def regrow (s : PoolState) (maxInstances : Nat) : PoolState :=
  { s with
    meshGroups :=
      ensureGroups s.batchSize maxInstances s.enableColors s.frustumCulled s.meshGroups }

/-- The physically allocated capacity: number of batches times `batchSize`. -/
def capacity (s : PoolState) : Nat :=
  s.meshGroups.length * s.batchSize

/-! ### Routing arithmetic -/

/-- On a non-negative index, the JS `Math.floor(index / batchSize)` is plain
natural-number division. -/
lemma groupIndexOf_natCast (batchSize i : Nat) :
    groupIndexOf batchSize i = ((i / batchSize : Nat) : Int) := by
  unfold groupIndexOf
  rw [Int.fdiv_eq_ediv _ (by positivity), Int.ofNat_ediv]

/-- On a non-negative index, the JS `%` remainder is plain natural-number mod. -/
lemma instanceIndexOf_natCast (batchSize i : Nat) :
    instanceIndexOf batchSize i = ((i % batchSize : Nat) : Int) := by
  unfold instanceIndexOf
  rw [← Int.ofNat_tmod]

/-- A negative index routes to a negative group index. -/
lemma groupIndexOf_neg {batchSize : Nat} {index : Int}
    (hbs : 0 < batchSize) (h : index < 0) :
    groupIndexOf batchSize index < 0 := by
  unfold groupIndexOf
  rw [Int.fdiv_eq_ediv _ (by positivity)]
  exact Int.ediv_neg' h (by exact_mod_cast hbs)

/-- `meshAt` on a natural group index is plain list lookup. -/
lemma meshAt_natCast (groups : List InstancedMesh) (g : Nat) :
    meshAt groups g = groups[g]? := by
  simp [meshAt]

/-- An index below the allocated capacity routes to an existing group. -/
lemma routed_group_lt {batchSize len i : Nat} (hbs : 0 < batchSize)
    (h : i < len * batchSize) : i / batchSize < len :=
  (Nat.div_lt_iff_lt_mul hbs).mpr h

/-! ### Projection lemmas for the constructed pool -/

@[simp] lemma initialPool_batchSize (bs mi : Nat) (ec fc c o p : Bool) :
    (initialPool bs mi ec fc c o p).batchSize = bs := rfl

@[simp] lemma initialPool_meshGroups (bs mi : Nat) (ec fc c o p : Bool) :
    (initialPool bs mi ec fc c o p).meshGroups = ensureGroups bs mi ec fc [] := rfl

@[simp] lemma initialPool_dirtyMatrixBatches (bs mi : Nat) (ec fc c o p : Bool) :
    (initialPool bs mi ec fc c o p).dirtyMatrixBatches = ∅ := rfl

@[simp] lemma initialPool_dirtyColorBatches (bs mi : Nat) (ec fc c o p : Bool) :
    (initialPool bs mi ec fc c o p).dirtyColorBatches = ∅ := rfl

/-! ### Parked transforms (C9) -/

lemma translationNormSq_makeTranslation (x y z : Int) :
    (Matrix4.makeTranslation x y z).translationNormSq = x ^ 2 + y ^ 2 + z ^ 2 := rfl

/-- C9: in every newly allocated batch, every slot that has not been written
holds a parked transform whose translation magnitude is at least `FarDistance`
(10000) units — stated exactly as `FarDistance² ≤ ‖translation‖²`, the integer
form of `10000 ≤ ‖translation‖`. -/
theorem parked_slots_outside_far_distance (batchSize : Nat)
    (enableColors frustumCulled : Bool) (m : Matrix4)
    (hm : m ∈ (newMesh batchSize enableColors frustumCulled).matrices) :
    FarDistance ^ 2 ≤ m.translationNormSq := by
  have hm' : m ∈ (List.range batchSize).map
      (fun i : Nat => Matrix4.makeTranslation 0 (FarDistance + (i : Int)) 0) := hm
  obtain ⟨j, -, rfl⟩ := List.mem_map.mp hm'
  rw [translationNormSq_makeTranslation]
  have hnn : (0 : Int) ≤ (j : Int) := Int.natCast_nonneg _
  have h1 : (FarDistance : Int) ≤ (FarDistance : Int) + (j : Int) := by linarith
  have h2 : (FarDistance : Int) ^ 2 ≤ ((FarDistance : Int) + (j : Int)) ^ 2 :=
    pow_le_pow_left₀ (by norm_num [FarDistance]) h1 2
  nlinarith [h2]

/-- Witness for C9 at `batchSize = 1`: the single fresh slot holds
`makeTranslation 0 10000 0`, whose squared translation norm is at least
`FarDistance²`. -/
theorem parked_slots_outside_far_distance_witness :
    Matrix4.makeTranslation 0 10000 0 ∈ (newMesh 1 false false).matrices ∧
      FarDistance ^ 2 ≤ (Matrix4.makeTranslation 0 10000 0).translationNormSq :=
  ⟨by decide, parked_slots_outside_far_distance 1 false false _ (by decide)⟩

/-! ### Drawn-slot counts (C2) -/

lemma setCounts_length (batchSize : Nat) (count offset : Int)
    (groups : List InstancedMesh) :
    (setCounts batchSize count offset groups).length = groups.length := by
  induction groups generalizing offset with
  | nil => rfl
  | cons mesh rest ih => simp [setCounts, ih]

lemma setCounts_getElem? (batchSize : Nat) (count offset : Int)
    (groups : List InstancedMesh) (b : Nat) :
    (setCounts batchSize count offset groups)[b]? =
      (groups[b]?).map fun mesh =>
        { mesh with count := max 0 (min (count - (offset + b * batchSize)) batchSize) } := by
  induction groups generalizing offset b with
  | nil => simp [setCounts]
  | cons mesh rest ih =>
      cases b with
      | zero => simp [setCounts]
      | succ b =>
          have harith : offset + (batchSize : Int) + (b : Int) * (batchSize : Int)
              = offset + ((b + 1 : Nat) : Int) * (batchSize : Int) := by
            push_cast
            ring
          simp only [setCounts, List.getElem?_cons_succ]
          rw [ih, harith]

/-- C2: for every `count` with `0 ≤ count ≤ maxInstances`, after
`setInstanceCount(count)` every batch `b` has its drawn slot count equal to
`clamp(count - b·batchSize, 0, batchSize)`; in particular with
`batchSize = 4` the call `setInstanceCount(7)` yields per-batch counts
`[4, 3, 0]` over 3 batches. -/
theorem setInstanceCount_clamps (batchSize maxInstances : Nat)
    (ec fc c o p : Bool) (count : Int)
    (_h0 : 0 ≤ count) (_hmax : count ≤ (maxInstances : Int)) :
    (∀ b : Nat,
      b < (setInstanceCount (initialPool batchSize maxInstances ec fc c o p)
            count).meshGroups.length →
      (((setInstanceCount (initialPool batchSize maxInstances ec fc c o p)
            count).meshGroups[b]?).map fun mesh => mesh.count)
        = some (min (max (count - b * batchSize) 0) batchSize))
    ∧ (setInstanceCount (initialPool 4 10 false false false false false) 7).meshGroups.map
        (fun mesh => mesh.count) = [4, 3, 0] := by
  constructor
  · intro b hb
    simp only [setInstanceCount, setCounts_length] at hb
    simp only [setInstanceCount, initialPool_batchSize]
    rw [setCounts_getElem?]
    rw [List.getElem?_eq_getElem hb]
    simp only [Option.map_some']
    congr 1
    omega
  · decide

/-- Witness for C2 at `batchSize = 4`, `maxInstances = 10`, `count = 7`:
batch 1 draws `min (max (7 - 4) 0) 4 = 3` slots, and the per-batch counts
are `[4, 3, 0]`. -/
theorem setInstanceCount_clamps_witness :
    (0 : Int) ≤ 7 ∧ (7 : Int) ≤ ((10 : Nat) : Int) ∧
    (((setInstanceCount (initialPool 4 10 false false false false false)
          7).meshGroups[1]?).map fun mesh => mesh.count) = some 3 ∧
    (setInstanceCount (initialPool 4 10 false false false false false) 7).meshGroups.map
        (fun mesh => mesh.count) = [4, 3, 0] := by
  refine ⟨by decide, by decide, ?_, ?_⟩
  · have h := (setInstanceCount_clamps 4 10 false false false false false 7 (by decide)
      (by decide)).1 1 (by decide)
    exact h
  · exact (setInstanceCount_clamps 4 10 false false false false false 7 (by decide)
      (by decide)).2

/-! ### Batch allocation and routing (C7) -/

lemma ensureGroups_nil_length (bs mi : Nat) (ec fc : Bool) :
    (ensureGroups bs mi ec fc []).length = neededGroupsFor mi bs := by
  simp only [ensureGroups]
  split
  · simp
  · simp_all

/-- `neededGroupsFor` is the ceiling of `maxInstances / batchSize`: the unique
`L` with `maxInstances ≤ L * batchSize < maxInstances + batchSize`. -/
lemma neededGroupsFor_ceil (mi bs : Nat) (hbs : 0 < bs) :
    mi ≤ neededGroupsFor mi bs * bs ∧ neededGroupsFor mi bs * bs < mi + bs := by
  unfold neededGroupsFor
  constructor
  · by_contra hlt
    push_neg at hlt
    have hstep : (((mi + bs - 1) / bs) + 1) * bs ≤ mi + bs - 1 := by
      have h1 : ((mi + bs - 1) / bs) * bs + bs ≤ mi + bs - 1 := by omega
      calc (((mi + bs - 1) / bs) + 1) * bs
          = ((mi + bs - 1) / bs) * bs + bs := by ring
        _ ≤ mi + bs - 1 := h1
    have h2 := (Nat.le_div_iff_mul_le hbs).mpr hstep
    omega
  · have h3 : ((mi + bs - 1) / bs) * bs ≤ mi + bs - 1 := Nat.div_mul_le_self _ _
    omega

/-- C7: for every `maxInstances ≥ 0` and `batchSize > 0`, the pool allocates
exactly `ceil(maxInstances / batchSize)` batches (characterized as the unique
`L` with `maxInstances ≤ L·batchSize < maxInstances + batchSize`), a logical
index routes to `(⌊index / batchSize⌋, index mod batchSize)`, and in the
concrete scenario `batchSize = 4, maxInstances = 10` the pool allocates 3
batches while `setMatrixAt(9, T)` writes batch 2 at offset 1 and marks
batch 2 dirty. -/
theorem batch_allocation_and_routing (bs mi : Nat) (ec fc c o p : Bool)
    (hbs : 0 < bs) :
    (mi ≤ (initialPool bs mi ec fc c o p).meshGroups.length * bs
      ∧ (initialPool bs mi ec fc c o p).meshGroups.length * bs < mi + bs)
    ∧ (∀ index : Nat,
        groupIndexOf bs index = ((index / bs : Nat) : Int)
        ∧ instanceIndexOf bs index = ((index % bs : Nat) : Int))
    ∧ ((initialPool 4 10 false false false false false).meshGroups.length = 3
      ∧ (((setMatrixAt (initialPool 4 10 false false false false false) 9
            (Matrix4.makeTranslation 1 2 3)).meshGroups[2]?).map
          fun mesh => mesh.matrices[1]?)
          = some (some (Matrix4.makeTranslation 1 2 3))
      ∧ (setMatrixAt (initialPool 4 10 false false false false false) 9
          (Matrix4.makeTranslation 1 2 3)).dirtyMatrixBatches = {2}) := by
  refine ⟨?_, ?_, by decide, by decide, by decide⟩
  · rw [initialPool_meshGroups, ensureGroups_nil_length]
    exact neededGroupsFor_ceil mi bs hbs
  · intro index
    exact ⟨groupIndexOf_natCast bs index, instanceIndexOf_natCast bs index⟩

/-- Witness for C7 at `batchSize = 4`, `maxInstances = 10`: the allocation
bound and the concrete scenario. -/
theorem batch_allocation_and_routing_witness :
    0 < 4
    ∧ (10 ≤ (initialPool 4 10 false false false false false).meshGroups.length * 4
      ∧ (initialPool 4 10 false false false false false).meshGroups.length * 4 < 10 + 4)
    ∧ ((initialPool 4 10 false false false false false).meshGroups.length = 3
      ∧ (((setMatrixAt (initialPool 4 10 false false false false false) 9
            (Matrix4.makeTranslation 1 2 3)).meshGroups[2]?).map
          fun mesh => mesh.matrices[1]?)
          = some (some (Matrix4.makeTranslation 1 2 3))
      ∧ (setMatrixAt (initialPool 4 10 false false false false false) 9
          (Matrix4.makeTranslation 1 2 3)).dirtyMatrixBatches = {2}) :=
  ⟨by decide,
    (batch_allocation_and_routing 4 10 false false false false false (by decide)).1,
    (batch_allocation_and_routing 4 10 false false false false false (by decide)).2.2⟩

/-! ### Out-of-range writes are silent no-ops (C3) -/

lemma setMatrixAt_eq_of_none {s : PoolState} {index : Int} {m : Matrix4}
    (h : meshAt s.meshGroups (groupIndexOf s.batchSize index) = none) :
    setMatrixAt s index m = s := by
  simp only [setMatrixAt, h]

/-- C3: for every out-of-range index (negative, or at least the current
allocated capacity), `setMatrixAt(index, matrix)` is a silent no-op: the whole
pool state — batch contents and dirty sets included — is unchanged. -/
theorem setMatrixAt_out_of_range_noop (s : PoolState) (index : Int) (m : Matrix4)
    (hbs : 0 < s.batchSize)
    (h : index < 0 ∨ (capacity s : Int) ≤ index) :
    setMatrixAt s index m = s := by
  apply setMatrixAt_eq_of_none
  rcases h with hneg | hge
  · have hg := groupIndexOf_neg hbs hneg
    simp [meshAt, not_le.mpr hg]
  · have h0 : 0 ≤ index := le_trans (Int.natCast_nonneg _) hge
    have hcast : index = ((index.toNat : Nat) : Int) := (Int.toNat_of_nonneg h0).symm
    rw [hcast, groupIndexOf_natCast, meshAt_natCast]
    apply List.getElem?_eq_none
    have hcap : capacity s ≤ index.toNat := by
      have := Int.toNat_le_toNat hge
      simpa using this
    unfold capacity at hcap
    exact (Nat.le_div_iff_mul_le hbs).mpr hcap

/-- Witness for C3: on the `batchSize = 4`, `maxInstances = 10` pool
(capacity 12), writing at index 12 leaves the pool unchanged. -/
theorem setMatrixAt_out_of_range_noop_witness :
    0 < (initialPool 4 10 false false false false false).batchSize
    ∧ (capacity (initialPool 4 10 false false false false false) : Int) ≤ 12
    ∧ setMatrixAt (initialPool 4 10 false false false false false) 12
        (Matrix4.makeTranslation 1 2 3) = initialPool 4 10 false false false false false :=
  ⟨by decide, by decide,
    setMatrixAt_out_of_range_noop (initialPool 4 10 false false false false false) 12
      (Matrix4.makeTranslation 1 2 3) (by decide) (Or.inr (by decide))⟩

/-! ### Disabled colors make setColorAt a no-op (C4) -/

lemma mem_of_meshAt_some {groups : List InstancedMesh} {g : Int}
    {mesh : InstancedMesh} (h : meshAt groups g = some mesh) : mesh ∈ groups := by
  unfold meshAt at h
  split at h
  · obtain ⟨hlt, rfl⟩ := List.getElem?_eq_some.mp h
    exact List.getElem_mem hlt
  · exact absurd h (by simp)

lemma mem_ensureGroups_nil {bs mi : Nat} {ec fc : Bool} {mesh : InstancedMesh}
    (h : mesh ∈ ensureGroups bs mi ec fc []) : mesh = newMesh bs ec fc := by
  simp only [ensureGroups] at h
  split at h
  · simp only [List.nil_append, List.mem_replicate] at h
    exact h.2
  · simp at h

/-- C4: on a pool constructed with `enableColors = false`, `setColorAt` is a
silent no-op for every index and color: no color slot is written and the whole
state — the color dirty set included — is unchanged. -/
theorem setColorAt_noop_when_colors_disabled (bs mi : Nat) (fc c o p : Bool)
    (index : Int) (color : Color) :
    setColorAt (initialPool bs mi false fc c o p) index color
      = initialPool bs mi false fc c o p := by
  cases hmesh : meshAt (initialPool bs mi false fc c o p).meshGroups
      (groupIndexOf (initialPool bs mi false fc c o p).batchSize index) with
  | none => simp only [setColorAt, hmesh]
  | some mesh =>
      have hmem : mesh ∈ (initialPool bs mi false fc c o p).meshGroups :=
        mem_of_meshAt_some hmesh
      rw [initialPool_meshGroups] at hmem
      have hcol : mesh.instanceColor = none := by
        rw [mem_ensureGroups_nil hmem]
        simp [newMesh]
      simp only [setColorAt, hmesh, hcol]

/-! ### Read-after-write round trip (C5) -/

/-- Characterization of a write at a routed-to-an-existing-batch natural
index: the routed batch's routed slot is overwritten and the batch index
inserted into the matrix dirty set. -/
lemma setMatrixAt_eq_of_getElem? (s : PoolState) (n : Nat) (m : Matrix4)
    (mesh : InstancedMesh) (h : s.meshGroups[n / s.batchSize]? = some mesh) :
    setMatrixAt s n m =
      { s with
        meshGroups := s.meshGroups.set (n / s.batchSize)
          { mesh with matrices := mesh.matrices.set (n % s.batchSize) m }
        dirtyMatrixBatches := insert (n / s.batchSize) s.dirtyMatrixBatches } := by
  simp only [setMatrixAt]
  rw [groupIndexOf_natCast, instanceIndexOf_natCast, meshAt_natCast]
  simp only [Int.toNat_natCast]
  rw [h]

lemma setMatrixAt_batchSize (s : PoolState) (index : Int) (m : Matrix4) :
    (setMatrixAt s index m).batchSize = s.batchSize := by
  simp only [setMatrixAt]
  cases meshAt s.meshGroups (groupIndexOf s.batchSize index) <;> rfl

/-- Characterization of a read at a routed-to-an-existing-batch natural
index. -/
lemma getMatrixAt_eq_of_getElem? (s : PoolState) (n : Nat) (m0 : Matrix4)
    (mesh : InstancedMesh) (h : s.meshGroups[n / s.batchSize]? = some mesh) :
    getMatrixAt s n m0 = (mesh.matrices[n % s.batchSize]?).getD m0 := by
  simp only [getMatrixAt]
  rw [groupIndexOf_natCast, instanceIndexOf_natCast, meshAt_natCast]
  simp only [Int.toNat_natCast]
  rw [h]

lemma markMatrixFlushed_matricesProj (nb : Bool) (d : Finset Nat)
    (groups : List InstancedMesh) (g0 k : Nat) :
    ((markMatrixFlushed nb d g0 groups)[k]?).map (fun mesh => mesh.matrices)
      = (groups[k]?).map fun mesh => mesh.matrices := by
  induction groups generalizing g0 k with
  | nil => simp [markMatrixFlushed]
  | cons mesh rest ih =>
      cases k with
      | zero =>
          simp only [markMatrixFlushed, List.getElem?_cons_zero, Option.map_some']
          split <;> rfl
      | succ k =>
          simp only [markMatrixFlushed, List.getElem?_cons_succ]
          exact ih (g0 + 1) k

lemma markColorFlushed_matricesProj (d : Finset Nat)
    (groups : List InstancedMesh) (g0 k : Nat) :
    ((markColorFlushed d g0 groups)[k]?).map (fun mesh => mesh.matrices)
      = (groups[k]?).map fun mesh => mesh.matrices := by
  induction groups generalizing g0 k with
  | nil => simp [markColorFlushed]
  | cons mesh rest ih =>
      cases k with
      | zero =>
          simp only [markColorFlushed, List.getElem?_cons_zero, Option.map_some']
          split <;> rfl
      | succ k =>
          simp only [markColorFlushed, List.getElem?_cons_succ]
          exact ih (g0 + 1) k

lemma updateMatrices_batchSize (s : PoolState) :
    (updateMatrices s).batchSize = s.batchSize := rfl

lemma updateMatrices_matricesProj (s : PoolState) (k : Nat) :
    ((updateMatrices s).meshGroups[k]?).map (fun mesh => mesh.matrices)
      = (s.meshGroups[k]?).map fun mesh => mesh.matrices := by
  simp only [updateMatrices, processUpdates]
  rw [markColorFlushed_matricesProj, markMatrixFlushed_matricesProj]

/-- `getMatrixAt` only looks at `batchSize` and the `matrices` buffers. -/
lemma getMatrixAt_congr (s s' : PoolState) (hbs : s'.batchSize = s.batchSize)
    (hproj : ∀ k : Nat, (s'.meshGroups[k]?).map (fun mesh => mesh.matrices)
      = (s.meshGroups[k]?).map fun mesh => mesh.matrices)
    (index : Int) (m0 : Matrix4) :
    getMatrixAt s' index m0 = getMatrixAt s index m0 := by
  simp only [getMatrixAt, meshAt, hbs]
  by_cases h0 : 0 ≤ groupIndexOf s.batchSize index
  · simp only [if_pos h0]
    have h := hproj (groupIndexOf s.batchSize index).toNat
    cases h1 : s.meshGroups[(groupIndexOf s.batchSize index).toNat]? with
    | none =>
        rw [h1, Option.map_none'] at h
        rw [Option.map_eq_none'.mp h]
    | some mesh =>
        rw [h1, Option.map_some'] at h
        cases h2 : s'.meshGroups[(groupIndexOf s.batchSize index).toNat]? with
        | none => rw [h2] at h; simp at h
        | some mesh' =>
            rw [h2, Option.map_some'] at h
            simp only [Option.some.inj h]
  · simp only [if_neg h0]

/-- A flush never changes what `getMatrixAt` returns. -/
lemma getMatrixAt_updateMatrices (s : PoolState) (index : Int) (m0 : Matrix4) :
    getMatrixAt (updateMatrices s) index m0 = getMatrixAt s index m0 :=
  getMatrixAt_congr s (updateMatrices s) (updateMatrices_batchSize s)
    (updateMatrices_matricesProj s) index m0

/-- Read-after-write without the flush in between. -/
lemma getMatrixAt_setMatrixAt_same (s : PoolState) (n : Nat) (m m0 : Matrix4)
    (hbs : 0 < s.batchSize)
    (hwf : ∀ mesh ∈ s.meshGroups, mesh.matrices.length = s.batchSize)
    (hn : n < capacity s) :
    getMatrixAt (setMatrixAt s n m) n m0 = m := by
  have hg := routed_group_lt hbs hn
  have hsome : s.meshGroups[n / s.batchSize]? =
      some (s.meshGroups.get ⟨n / s.batchSize, hg⟩) := by
    rw [List.getElem?_eq_getElem hg]
    rfl
  have h2 : (setMatrixAt s n m).meshGroups[n / (setMatrixAt s n m).batchSize]?
      = some { s.meshGroups.get ⟨n / s.batchSize, hg⟩ with
          matrices := (s.meshGroups.get ⟨n / s.batchSize, hg⟩).matrices.set
            (n % s.batchSize) m } := by
    rw [setMatrixAt_eq_of_getElem? s n m _ hsome]
    show (s.meshGroups.set (n / s.batchSize) _)[n / s.batchSize]? = _
    rw [List.getElem?_set_self', hsome]
    rfl
  rw [getMatrixAt_eq_of_getElem? (setMatrixAt s n m) n m0 _ h2,
    setMatrixAt_batchSize]
  show (((s.meshGroups.get ⟨n / s.batchSize, hg⟩).matrices.set
      (n % s.batchSize) m)[n % s.batchSize]?).getD m0 = m
  have hslot : n % s.batchSize <
      (s.meshGroups.get ⟨n / s.batchSize, hg⟩).matrices.length := by
    rw [hwf _ (List.get_mem _ _ hg)]
    exact Nat.mod_lt _ hbs
  rw [List.getElem?_set_self', List.getElem?_eq_getElem hslot]
  rfl

/-- C5: for every valid index (`0 ≤ index <` allocated capacity) and every
transform `T`, the sequence `setMatrixAt(index, T); updateMatrices();
getMatrixAt(index)` returns `T` — the round trip through the batch routing.
The pool is assumed well-formed: each batch buffer holds `batchSize` slots,
as every constructed pool does. -/
theorem set_flush_get_roundtrip (s : PoolState) (index : Int) (m m0 : Matrix4)
    (hbs : 0 < s.batchSize)
    (hwf : ∀ mesh ∈ s.meshGroups, mesh.matrices.length = s.batchSize)
    (h0 : 0 ≤ index) (hcap : index < (capacity s : Int)) :
    getMatrixAt (updateMatrices (setMatrixAt s index m)) index m0 = m := by
  rw [getMatrixAt_updateMatrices]
  obtain ⟨n, rfl⟩ : ∃ n : Nat, index = (n : Int) :=
    ⟨index.toNat, (Int.toNat_of_nonneg h0).symm⟩
  have hn : n < capacity s := by exact_mod_cast hcap
  exact getMatrixAt_setMatrixAt_same s n m m0 hbs hwf hn

/-- Witness for C5 on the `batchSize = 4`, `maxInstances = 10` pool at
index 5. -/
theorem set_flush_get_roundtrip_witness :
    0 < (initialPool 4 10 false false false false false).batchSize
    ∧ (0 : Int) ≤ 5
    ∧ (5 : Int) < (capacity (initialPool 4 10 false false false false false) : Int)
    ∧ getMatrixAt
        (updateMatrices (setMatrixAt (initialPool 4 10 false false false false false) 5
          (Matrix4.makeTranslation 7 8 9)))
        5 (Matrix4.makeTranslation 0 0 0) = Matrix4.makeTranslation 7 8 9 :=
  ⟨by decide, by decide, by decide,
    set_flush_get_roundtrip (initialPool 4 10 false false false false false) 5
      (Matrix4.makeTranslation 7 8 9) (Matrix4.makeTranslation 0 0 0)
      (by decide) (by decide) (by decide) (by decide)⟩

/-! ### Flush idempotence and minimal work (C6) -/

lemma markMatrixFlushed_empty (nb : Bool) (g : Nat) (groups : List InstancedMesh) :
    markMatrixFlushed nb ∅ g groups = groups := by
  induction groups generalizing g with
  | nil => rfl
  | cons mesh rest ih => simp [markMatrixFlushed, ih]

lemma markColorFlushed_empty (g : Nat) (groups : List InstancedMesh) :
    markColorFlushed ∅ g groups = groups := by
  induction groups generalizing g with
  | nil => rfl
  | cons mesh rest ih => simp [markColorFlushed, ih]

/-- A flush of a fully clean pool does no work at all. -/
lemma processUpdates_of_clean (s : PoolState)
    (h1 : s.dirtyMatrixBatches = ∅) (h2 : s.dirtyColorBatches = ∅) :
    processUpdates s = (s, 0, 0) := by
  obtain ⟨bs, groups, dm, dc, cic, ec, fc, hc, hov, hoo⟩ := s
  dsimp only at h1 h2
  subst h1
  subst h2
  simp [processUpdates, markMatrixFlushed_empty, markColorFlushed_empty]

/-- C6: flush is a no-op when nothing is dirty — after any flush, a second
flush with no intervening writes performs zero buffer-upload signals and zero
bounding-volume recomputations and returns the state unchanged; moreover a
flush performs bounding-volume recomputations only when the pool is
configured for interaction or culling (`shouldComputeBounds`). -/
theorem flush_idempotent_minimal_work (s : PoolState) :
    processUpdates (updateMatrices s) = (updateMatrices s, 0, 0)
    ∧ (shouldComputeBounds s = false → (processUpdates s).2.2 = 0) := by
  refine ⟨processUpdates_of_clean _ rfl rfl, ?_⟩
  intro h
  simp [processUpdates, h]

/-- Witness for C6 on a dirty pool (one write at index 5 of the 3-batch
pool): the pool is not configured for bounds, the first flush performs zero
bounds recomputations, and a second flush is a complete no-op. -/
theorem flush_idempotent_minimal_work_witness :
    shouldComputeBounds
        (setMatrixAt (initialPool 4 10 false false false false false) 5
          (Matrix4.makeTranslation 1 2 3)) = false
    ∧ (processUpdates
        (setMatrixAt (initialPool 4 10 false false false false false) 5
          (Matrix4.makeTranslation 1 2 3))).2.2 = 0
    ∧ processUpdates
        (updateMatrices
          (setMatrixAt (initialPool 4 10 false false false false false) 5
            (Matrix4.makeTranslation 1 2 3)))
      = (updateMatrices
          (setMatrixAt (initialPool 4 10 false false false false false) 5
            (Matrix4.makeTranslation 1 2 3)), 0, 0) :=
  ⟨by decide,
    (flush_idempotent_minimal_work
      (setMatrixAt (initialPool 4 10 false false false false false) 5
        (Matrix4.makeTranslation 1 2 3))).2 (by decide),
    (flush_idempotent_minimal_work
      (setMatrixAt (initialPool 4 10 false false false false false) 5
        (Matrix4.makeTranslation 1 2 3))).1⟩

/-! ### Bulk writes mark exactly the touched batches (C1) -/

lemma writeMatrices_affected (bs : Nat) (hbs : 0 < bs) (ms : List Matrix4) :
    ∀ (start : Nat) (groups : List InstancedMesh),
      start + ms.length ≤ groups.length * bs →
      (writeMatrices bs start ms groups).2
        = (Finset.range ms.length).image fun i => (start + i) / bs := by
  induction ms with
  | nil => intro start groups h; simp [writeMatrices]
  | cons m rest ih =>
      intro start groups h
      have hstart : start < groups.length * bs := by
        simp only [List.length_cons] at h
        omega
      have hg := routed_group_lt hbs hstart
      have hsome : groups[start / bs]? = some (groups.get ⟨start / bs, hg⟩) := by
        rw [List.getElem?_eq_getElem hg]
        rfl
      simp only [writeMatrices, groupIndexOf_natCast, instanceIndexOf_natCast,
        meshAt_natCast, Int.toNat_natCast]
      rw [hsome]
      have hrec := ih (start + 1)
        (groups.set (start / bs)
          { groups.get ⟨start / bs, hg⟩ with
            matrices := (groups.get ⟨start / bs, hg⟩).matrices.set (start % bs) m })
        (by
          simp only [List.length_set]
          simp only [List.length_cons] at h
          omega)
      push_cast at hrec
      dsimp only
      rw [hrec]
      ext a
      simp only [Finset.mem_insert, Finset.mem_image, Finset.mem_range,
        List.length_cons]
      constructor
      · rintro (rfl | ⟨i, hi, rfl⟩)
        · exact ⟨0, by omega, by simp⟩
        · exact ⟨i + 1, by omega, by rw [show start + (i + 1) = start + 1 + i by omega]⟩
      · rintro ⟨i, hi, rfl⟩
        cases i with
        | zero => left; simp
        | succ i =>
            right
            exact ⟨i, by omega, by rw [show start + 1 + i = start + (i + 1) by omega]⟩

/-- C1: on a pool whose matrix dirty set is empty, `setMatrices(transforms,
start)` with the whole range `[start, start + n)` inside the allocated
capacity leaves the matrix dirty set equal to exactly the set of distinct
batch indices `⌊(start + i) / batchSize⌋` for `i < n` — no batch outside that
set, every batch in it. -/
theorem setMatrices_dirty_exact (s : PoolState) (ms : List Matrix4) (start : Nat)
    (hbs : 0 < s.batchSize)
    (hdirty : s.dirtyMatrixBatches = ∅)
    (hcap : start + ms.length ≤ capacity s) :
    (setMatrices s ms start).dirtyMatrixBatches
      = (Finset.range ms.length).image fun i => (start + i) / s.batchSize := by
  simp only [setMatrices]
  rw [hdirty, writeMatrices_affected s.batchSize hbs ms start s.meshGroups hcap,
    Finset.empty_union]

/-- Witness for C1: two transforms written at start index 3 of the
`batchSize = 4`, `maxInstances = 10` pool dirty exactly batches `{0, 1}`. -/
theorem setMatrices_dirty_exact_witness :
    0 < (initialPool 4 10 false false false false false).batchSize
    ∧ (initialPool 4 10 false false false false false).dirtyMatrixBatches = ∅
    ∧ 3 + [Matrix4.makeTranslation 1 2 3, Matrix4.makeTranslation 4 5 6].length
        ≤ capacity (initialPool 4 10 false false false false false)
    ∧ (setMatrices (initialPool 4 10 false false false false false)
        [Matrix4.makeTranslation 1 2 3, Matrix4.makeTranslation 4 5 6]
        3).dirtyMatrixBatches
      = (Finset.range
          [Matrix4.makeTranslation 1 2 3, Matrix4.makeTranslation 4 5 6].length).image
          fun i => (3 + i) / (initialPool 4 10 false false false false false).batchSize :=
  ⟨by decide, by decide, by decide,
    setMatrices_dirty_exact (initialPool 4 10 false false false false false)
      [Matrix4.makeTranslation 1 2 3, Matrix4.makeTranslation 4 5 6] 3
      (by decide) (by decide) (by decide)⟩

/-! ### Growth preserves retained batches (C8) -/

lemma regrow_batchSize (s : PoolState) (maxInstances : Nat) :
    (regrow s maxInstances).batchSize = s.batchSize := rfl

lemma regrow_meshGroups_append (s : PoolState) (M1 M2 : Nat)
    (hlen : s.meshGroups.length = neededGroupsFor M1 s.batchSize)
    (hM : M1 ≤ M2) :
    (regrow s M2).meshGroups
      = s.meshGroups ++ List.replicate
          (neededGroupsFor M2 s.batchSize - neededGroupsFor M1 s.batchSize)
          (newMesh s.batchSize s.enableColors s.frustumCulled) := by
  have hmono : neededGroupsFor M1 s.batchSize ≤ neededGroupsFor M2 s.batchSize :=
    Nat.div_le_div_right (by omega)
  simp only [regrow, ensureGroups]
  by_cases hc : s.meshGroups.length < neededGroupsFor M2 s.batchSize
  · rw [if_pos hc, hlen]
  · rw [if_neg hc]
    push_neg at hc
    have heq : neededGroupsFor M2 s.batchSize = s.meshGroups.length := by omega
    have h0 : neededGroupsFor M2 s.batchSize - neededGroupsFor M1 s.batchSize = 0 := by
      omega
    rw [h0, heq, List.take_length]
    simp

/-- C8: growing the pool from `maxInstances = M1` to `M2 > M1` (same
`batchSize`) only appends fresh batches — the retained prefix of `meshGroups`
is exactly the old list — and every read at an index `< M1` returns the same
transform before and after the reallocation. -/
theorem grow_preserves_written_transforms (s : PoolState) (M1 M2 : Nat)
    (hbs : 0 < s.batchSize)
    (hlen : s.meshGroups.length = neededGroupsFor M1 s.batchSize)
    (hM : M1 < M2) :
    (regrow s M2).meshGroups
      = s.meshGroups ++ List.replicate
          (neededGroupsFor M2 s.batchSize - neededGroupsFor M1 s.batchSize)
          (newMesh s.batchSize s.enableColors s.frustumCulled)
    ∧ ∀ (index : Int) (m0 : Matrix4), 0 ≤ index → index < (M1 : Int) →
        getMatrixAt (regrow s M2) index m0 = getMatrixAt s index m0 := by
  have happ := regrow_meshGroups_append s M1 M2 hlen (le_of_lt hM)
  refine ⟨happ, ?_⟩
  intro index m0 h0 hM1
  obtain ⟨n, rfl⟩ : ∃ n : Nat, index = (n : Int) :=
    ⟨index.toNat, (Int.toNat_of_nonneg h0).symm⟩
  have hn1 : n < M1 := by exact_mod_cast hM1
  have hcapn : n < s.meshGroups.length * s.batchSize := by
    have := (neededGroupsFor_ceil M1 s.batchSize hbs).1
    rw [hlen]
    omega
  have hg := routed_group_lt hbs hcapn
  have hsome : s.meshGroups[n / s.batchSize]? =
      some (s.meshGroups.get ⟨n / s.batchSize, hg⟩) := by
    rw [List.getElem?_eq_getElem hg]
    rfl
  have hsome2 : (regrow s M2).meshGroups[n / (regrow s M2).batchSize]? =
      some (s.meshGroups.get ⟨n / s.batchSize, hg⟩) := by
    show (regrow s M2).meshGroups[n / s.batchSize]? = _
    rw [happ, List.getElem?_append_left hg, hsome]
  rw [getMatrixAt_eq_of_getElem? (regrow s M2) n m0 _ hsome2,
    getMatrixAt_eq_of_getElem? s n m0 _ hsome, regrow_batchSize]

/-- Witness for C8: growing the `batchSize = 4` pool from `maxInstances = 10`
(3 batches) to `13` (4 batches) appends one fresh batch and preserves the
read at index 5. -/
theorem grow_preserves_written_transforms_witness :
    0 < (initialPool 4 10 false false false false false).batchSize
    ∧ (initialPool 4 10 false false false false false).meshGroups.length
        = neededGroupsFor 10 (initialPool 4 10 false false false false false).batchSize
    ∧ (10 : Nat) < 13
    ∧ (regrow (initialPool 4 10 false false false false false) 13).meshGroups
        = (initialPool 4 10 false false false false false).meshGroups
          ++ List.replicate
            (neededGroupsFor 13 (initialPool 4 10 false false false false false).batchSize
              - neededGroupsFor 10 (initialPool 4 10 false false false false false).batchSize)
            (newMesh (initialPool 4 10 false false false false false).batchSize
              (initialPool 4 10 false false false false false).enableColors
              (initialPool 4 10 false false false false false).frustumCulled)
    ∧ getMatrixAt (regrow (initialPool 4 10 false false false false false) 13) 5
        (Matrix4.makeTranslation 0 0 0)
      = getMatrixAt (initialPool 4 10 false false false false false) 5
        (Matrix4.makeTranslation 0 0 0) :=
  ⟨by decide, by decide, by decide,
    (grow_preserves_written_transforms (initialPool 4 10 false false false false false)
      10 13 (by decide) (by decide) (by decide)).1,
    (grow_preserves_written_transforms (initialPool 4 10 false false false false false)
      10 13 (by decide) (by decide) (by decide)).2 5 (Matrix4.makeTranslation 0 0 0)
      (by decide) (by decide)⟩

/-! ### The leniency boundary is allocated capacity, not maxInstances (C10) -/

lemma initialPool_wf (bs mi : Nat) (ec fc c o p : Bool) :
    ∀ mesh ∈ (initialPool bs mi ec fc c o p).meshGroups,
      mesh.matrices.length = bs := by
  intro mesh hm
  rw [initialPool_meshGroups] at hm
  rw [mem_ensureGroups_nil hm]
  simp [newMesh]

/-- The last-batch index characterization of a padding slot: an index between
`maxInstances` and the allocated capacity routes to the final batch. -/
lemma padding_routes_to_last {bs mi index : Nat} (hbs : 0 < bs)
    (hlo : mi ≤ index) (hhi : index < neededGroupsFor mi bs * bs) :
    index / bs = neededGroupsFor mi bs - 1 := by
  have hL : neededGroupsFor mi bs ≠ 0 := by
    intro h
    rw [h] at hhi
    omega
  have h2 : (neededGroupsFor mi bs - 1) * bs < mi := by
    by_contra hcon
    push_neg at hcon
    have hLbs : (neededGroupsFor mi bs - 1) * bs + bs = neededGroupsFor mi bs * bs := by
      have hL1 : neededGroupsFor mi bs - 1 + 1 = neededGroupsFor mi bs := by omega
      calc (neededGroupsFor mi bs - 1) * bs + bs
          = (neededGroupsFor mi bs - 1 + 1) * bs := by ring
        _ = neededGroupsFor mi bs * bs := by rw [hL1]
    have hlt : mi + bs - 1 < neededGroupsFor mi bs * bs := by omega
    have hdiv := (Nat.div_lt_iff_lt_mul hbs).mpr hlt
    unfold neededGroupsFor at hdiv
    omega
  have hup : index / bs < neededGroupsFor mi bs := routed_group_lt hbs hhi
  have hdown : neededGroupsFor mi bs - 1 ≤ index / bs :=
    (Nat.le_div_iff_mul_le hbs).mpr (by omega)
  omega

/-- C10: the leniency boundary for writes is the physically allocated
capacity, not `maxInstances`: for every padding index with
`maxInstances ≤ index < ceil(maxInstances/batchSize)·batchSize`,
`setMatrixAt(index, T)` is not a no-op — it marks exactly the last batch
dirty, the index routes to that last batch, and reading the index back
returns `T`. -/
theorem padding_slots_writable (bs mi : Nat) (ec fc c o p : Bool)
    (index : Nat) (m m0 : Matrix4)
    (hbs : 0 < bs) (hlo : mi ≤ index)
    (hhi : index < neededGroupsFor mi bs * bs) :
    (setMatrixAt (initialPool bs mi ec fc c o p) index m).dirtyMatrixBatches
        = {(initialPool bs mi ec fc c o p).meshGroups.length - 1}
    ∧ index / bs = (initialPool bs mi ec fc c o p).meshGroups.length - 1
    ∧ getMatrixAt (setMatrixAt (initialPool bs mi ec fc c o p) index m) index m0
        = m := by
  have hlength : (initialPool bs mi ec fc c o p).meshGroups.length
      = neededGroupsFor mi bs := by
    rw [initialPool_meshGroups, ensureGroups_nil_length]
  have hgeq : index / bs = neededGroupsFor mi bs - 1 :=
    padding_routes_to_last hbs hlo hhi
  have hg : index / bs < (initialPool bs mi ec fc c o p).meshGroups.length := by
    rw [hlength]
    exact routed_group_lt hbs hhi
  have hcap : index < capacity (initialPool bs mi ec fc c o p) := by
    unfold capacity
    rw [hlength, initialPool_batchSize]
    exact hhi
  refine ⟨?_, by rw [hlength]; exact hgeq, ?_⟩
  · have hsome : (initialPool bs mi ec fc c o p).meshGroups[index /
        (initialPool bs mi ec fc c o p).batchSize]?
        = some ((initialPool bs mi ec fc c o p).meshGroups.get ⟨index / bs, hg⟩) := by
      show (initialPool bs mi ec fc c o p).meshGroups[index / bs]? = _
      rw [List.getElem?_eq_getElem hg]
      rfl
    rw [setMatrixAt_eq_of_getElem? _ index m _ hsome]
    show insert (index / (initialPool bs mi ec fc c o p).batchSize)
        (initialPool bs mi ec fc c o p).dirtyMatrixBatches = _
    rw [initialPool_batchSize, initialPool_dirtyMatrixBatches, hgeq, hlength]
    simp
  · exact getMatrixAt_setMatrixAt_same _ index m m0 hbs
      (initialPool_wf bs mi ec fc c o p) hcap

/-- Witness for C10: on the `batchSize = 4`, `maxInstances = 10` pool the
padding index 11 (`10 ≤ 11 < 12`) is written for real: batch 2 is marked
dirty and the value reads back. -/
theorem padding_slots_writable_witness :
    0 < 4 ∧ 10 ≤ 11 ∧ 11 < neededGroupsFor 10 4 * 4
    ∧ (setMatrixAt (initialPool 4 10 false false false false false) 11
        (Matrix4.makeTranslation 1 2 3)).dirtyMatrixBatches
      = {(initialPool 4 10 false false false false false).meshGroups.length - 1}
    ∧ (11 : Nat) / 4 = (initialPool 4 10 false false false false false).meshGroups.length - 1
    ∧ getMatrixAt
        (setMatrixAt (initialPool 4 10 false false false false false) 11
          (Matrix4.makeTranslation 1 2 3)) 11 (Matrix4.makeTranslation 0 0 0)
      = Matrix4.makeTranslation 1 2 3 :=
  ⟨by decide, by decide, by decide,
    (padding_slots_writable 4 10 false false false false false 11
      (Matrix4.makeTranslation 1 2 3) (Matrix4.makeTranslation 0 0 0)
      (by decide) (by decide) (by decide)).1,
    (padding_slots_writable 4 10 false false false false false 11
      (Matrix4.makeTranslation 1 2 3) (Matrix4.makeTranslation 0 0 0)
      (by decide) (by decide) (by decide)).2.1,
    (padding_slots_writable 4 10 false false false false false 11
      (Matrix4.makeTranslation 1 2 3) (Matrix4.makeTranslation 0 0 0)
      (by decide) (by decide) (by decide)).2.2⟩

end InstanceMeshPool
